import Mathlib

/- Verification of the MATLAB easyblock (easybuild/easyblocks/m/matlab.py).
   The file embeds the configure and install steps of the easyblock as
   executable Lean definitions and proves theorems about them.  Strings from
   the Python source are modelled as Lean `String` or `List Char`; the
   captured output and exit code of an external installer invocation are
   modelled by an oracle `run : String → String × Int`. -/

/-- Python `sep.join(parts)`: concatenates `parts`, inserting `sep` between
consecutive elements. -/
def pyJoin (sep : String) : List String → String
  | [] => ""
  | [x] => x
  | x :: y :: xs => x ++ sep ++ pyJoin sep (y :: xs)

/-- Python `s.split(',')` on the character list of `s`: splits at every
comma, keeping empty segments (so `[]` gives one empty segment and a
trailing comma yields a trailing empty segment). -/
def pySplitComma : List Char → List (List Char)
  | [] => [[]]
  | c :: cs =>
    if c = ',' then [] :: pySplitComma cs
    else
      match pySplitComma cs with
      | [] => [[c]]
      | t :: ts => (c :: t) :: ts

/-- Python `s.split(',')` at the `String` level. -/
def pySplit (s : String) : List String :=
  (pySplitComma s.data).map fun l => ⟨l⟩

/-- Python `s.replace(old, new)` for a nonempty pattern `old`: scans left to
right, rewriting every non-overlapping occurrence of `old` into `new`.  The
call site in `install_step` always passes the fixed nonempty literal
`'# fileInstallationKey='`, so the empty-pattern corner of `str.replace`
never arises and an empty `old` here replaces nothing. -/
def pyReplace (old new : List Char) : List Char → List Char
  | [] => []
  | c :: cs =>
    if h : old ≠ [] ∧ old.isPrefixOf (c :: cs) then
      new ++ pyReplace old new ((c :: cs).drop old.length)
    else
      c :: pyReplace old new cs
termination_by s => s.length
decreasing_by
  · simp only [List.length_drop, List.length_cons]
    have hpos : 0 < old.length := List.length_pos.mpr h.1
    omega
  · simp only [List.length_cons]
    omega

/-- Python `s.replace(old, new)` at the `String` level. -/
def pyReplaceS (old new s : String) : String := ⟨pyReplace old.data new.data s.data⟩

/-- Executable substring test on character lists: `true` iff `needle` occurs
contiguously inside the haystack. -/
def isSubstr (needle : List Char) : List Char → Bool
  | [] => needle.isEmpty
  | c :: cs => needle.isPrefixOf (c :: cs) || isSubstr needle cs

/-- Python `needle in hay` on strings. -/
def containsS (needle hay : String) : Bool := isSubstr needle.data hay.data

/-- ASCII lowercasing of a string, character by character. -/
def lowerS (s : String) : String := ⟨s.data.map Char.toLower⟩

/-- Case-insensitive substring search: models `re.compile(pat, re.I).search(out)`
for the literal, metacharacter-free pattern used in `install_step` (only
ASCII letters occur in it, so ASCII case folding is exact). -/
def containsCI (needle hay : String) : Bool := containsS (lowerS needle) (lowerS hay)

/-- One parsed component of a `distutils.version.LooseVersion`: a run of
digits becomes a number, any other kept run of characters stays a string. -/
inductive VComp where
  | num (n : Nat)
  | str (s : List Char)
deriving DecidableEq

/-- Numeric value of a run of ASCII digits, as Python `int(run)`. -/
def digitsVal (cs : List Char) : Nat :=
  cs.foldl (fun acc c => 10 * acc + (c.toNat - '0'.toNat)) 0

/-- Lowercase ASCII letter test, the Python character class `[a-z]`. -/
def isLowerAZ (c : Char) : Bool := 'a' ≤ c && c ≤ 'z'

/-- Character class of LooseVersion's filler components: neither a digit nor
a lowercase letter nor a dot. -/
def isOtherC (c : Char) : Bool := !c.isDigit && !isLowerAZ c && !(c == '.')

/-- Character classes of the LooseVersion tokenizer, one per alternative of
the splitting pattern `(\d+ | [a-z]+ | \.)` plus the filler class of
characters matched by none of them. -/
inductive RunKind where
  | digit
  | lower
  | other
deriving DecidableEq

/-- Class of one character under the LooseVersion tokenizer; `none` for a
dot, which is dropped. -/
def charKind (c : Char) : Option RunKind :=
  if c.isDigit then some RunKind.digit
  else if isLowerAZ c then some RunKind.lower
  else if c = '.' then none
  else some RunKind.other

/-- Component made from one maximal run of same-class characters (the run is
accumulated in reverse): digit runs become numbers as in Python `int`, any
other run stays a string. -/
def flushRun : RunKind → List Char → VComp
  | RunKind.digit, run => VComp.num (digitsVal run.reverse)
  | RunKind.lower, run => VComp.str run.reverse
  | RunKind.other, run => VComp.str run.reverse

/-- One-pass run accumulator of the LooseVersion tokenizer: the state is the
class and the reversed characters of the run being read; a dot or a class
change ends the current maximal run. -/
def looseTokensGo : Option (RunKind × List Char) → List Char → List VComp
  | none, [] => []
  | some (k, run), [] => [flushRun k run]
  | none, c :: cs =>
    match charKind c with
    | none => looseTokensGo none cs
    | some k => looseTokensGo (some (k, [c])) cs
  | some (k, run), c :: cs =>
    match charKind c with
    | none => flushRun k run :: looseTokensGo none cs
    | some k2 =>
      if k2 = k then looseTokensGo (some (k, c :: run)) cs
      else flushRun k run :: looseTokensGo (some (k2, [c])) cs

/-- Tokenizer of `distutils.version.LooseVersion.parse`: splits the version
string on the pattern `(\d+ | [a-z]+ | \.)`, drops the dots, converts the
maximal digit runs to numbers and keeps every other maximal same-class run
as a string component. -/
def looseTokens (l : List Char) : List VComp := looseTokensGo none l

/-- LooseVersion parse of a version string. -/
def looseParse (s : String) : List VComp := looseTokens s.data

/-- Lexicographic code-point comparison of character lists, Python `str < str`. -/
def charsLt : List Char → List Char → Bool
  | [], [] => false
  | [], _ :: _ => true
  | _ :: _, [] => false
  | a :: as, b :: bs => if a < b then true else if a = b then charsLt as bs else false

/-- Comparison of two LooseVersion components.  Numbers and strings compare
as in Python; on mixed components this takes the Python 2 convention that
every number sorts before every string (the version strings compared in this
easyblock always parse to same-shaped component lists, so the mixed case is
never exercised by the version gates). -/
def vcompLt : VComp → VComp → Bool
  | VComp.num m, VComp.num n => decide (m < n)
  | VComp.str s, VComp.str t => charsLt s t
  | VComp.num _, VComp.str _ => true
  | VComp.str _, VComp.num _ => false

/-- Python list comparison on component lists: lexicographic, a strict
initial segment sorting first. -/
def vlistLt : List VComp → List VComp → Bool
  | [], [] => false
  | [], _ :: _ => true
  | _ :: _, [] => false
  | a :: as, b :: bs => if vcompLt a b then true else if a = b then vlistLt as bs else false

/-- Comparison `LooseVersion(a) < LooseVersion(b)`. -/
def looseLt (a b : String) : Bool := vlistLt (looseParse a) (looseParse b)

/-- Version gate of `install_step`:
`LooseVersion(self.version) >= LooseVersion('2020a')`, which selects the
modern `-inputFile` binary-installer method. -/
def useModernInstaller (version : String) : Bool := !looseLt version "2020a"

/-- Marker recognized by the anchored multiline pattern `^# destinationFolder=.*`. -/
def destMarker : String := "# destinationFolder="

/-- Marker recognized by the anchored multiline pattern `^# agreeToLicense=.*`. -/
def agreeMarker : String := "# agreeToLicense="

/-- Marker recognized by the anchored multiline pattern `^# mode=.*`. -/
def modeMarker : String := "# mode="

/-- Marker recognized by the anchored multiline pattern `^# licensePath=.*`. -/
def licpathMarker : String := "# licensePath="

/-- Test whether the anchored multiline pattern `^marker.*` matches the line
`l`, i.e. whether `l` begins with the marker.  Since `.` does not match a
newline, such a match always spans exactly the whole line, so the per-line
substitution below replaces whole lines. -/
def matchesMarker (marker l : String) : Bool := marker.data.isPrefixOf l.data

/-- Action of one `regex.sub(repl, config)` on a single line of the
configuration text: a line matched by the anchored pattern is replaced
wholly by `repl`, any other line is kept unchanged. -/
def subLineOne (marker repl l : String) : String := if matchesMarker marker l then repl else l

/-- Action of one `regex.sub(repl, config)` on the whole configuration,
viewed as its list of lines. -/
def subLine (marker repl : String) (lines : List String) : List String :=
  lines.map (subLineOne marker repl)

/-- The four sequential substitutions of `configure_step`, applied to the
template's lines: destinationFolder, then agreeToLicense, then mode, then
licensePath. -/
def configure_step_subs (installdir licfile : String) (lines : List String) : List String :=
  subLine licpathMarker ("licensePath=" ++ licfile)
    (subLine modeMarker "mode=silent"
      (subLine agreeMarker "agreeToLicense=Yes"
        (subLine destMarker ("destinationFolder=" ++ installdir) lines)))

/-- Composite per-line action of the four sequential substitutions of
`configure_step`, in their source order. -/
def activateLine (installdir licfile l : String) : String :=
  subLineOne licpathMarker ("licensePath=" ++ licfile)
    (subLineOne modeMarker "mode=silent"
      (subLineOne agreeMarker "agreeToLicense=Yes"
        (subLineOne destMarker ("destinationFolder=" ++ installdir) l)))

/-- Concrete template lines used by concrete checks. -/
def linesW : List String :=
  ["## intro", "# destinationFolder=/opt/old", "# agreeToLicense=no", "# mode=interactive",
   "# licensePath=", "# fileInstallationKey=", "trailing text"]

/-- Resolution of the license server host in `configure_step`:
`self.cfg['license_server']` when set, else
`os.getenv('EB_MATLAB_LICENSE_SERVER', 'license.example.com')`. -/
def resolveLicServer (cfgServer envServer : Option String) : String :=
  match cfgServer with
  | some s => s
  | none => envServer.getD "license.example.com"

/-- Resolution of the license server port in `configure_step`:
`self.cfg['license_server_port']` when set, else
`os.getenv('EB_MATLAB_LICENSE_SERVER_PORT', '00000')`. -/
def resolveLicPort (cfgPort envPort : Option String) : String :=
  match cfgPort with
  | some p => p
  | none => envPort.getD "00000"

/-- Text of the license file synthesized by `configure_step` when no license
file is configured: a SERVER line and a USE_SERVER line joined by a
newline. -/
def synthLicText (cfgServer cfgPort envServer envPort : Option String) : String :=
  pyJoin "\n"
    ["SERVER " ++ resolveLicServer cfgServer envServer ++ " 000000000000 " ++
       resolveLicPort cfgPort envPort,
     "USE_SERVER"]

/-- License-file decision of `configure_step`: when a license file is
configured it is used as is and nothing is synthesized (`none` here);
otherwise the two-line server stanza is synthesized. -/
def configureLicenseText (cfgFile cfgServer cfgPort envServer envPort : Option String) :
    Option String :=
  match cfgFile with
  | some _ => none
  | none => some (synthLicText cfgServer cfgPort envServer envPort)

/-- The one known error signature scanned for in installer output. -/
def invalidKeyPattern : String := "Error: You have entered an invalid File Installation Key"

/-- The list `patterns` of `install_step`. -/
def errorPatterns : List String := [invalidKeyPattern]

/-- Outcome of `install_step`: completion, or the EasyBuildError raised on
the first error-pattern match, carrying the matched pattern, the full
command string and the full captured output. -/
inductive InstallResult where
  | ok : InstallResult
  | fatal (pattern cmd out : String) : InstallResult
deriving DecidableEq

/-- Output inspection after one invocation: the first pattern whose
case-insensitive search matches the captured output raises the fatal
error carrying the pattern, the command and the output. -/
def scanOutput (cmd out : String) : InstallResult :=
  match errorPatterns.find? (fun p => containsCI p out) with
  | some p => InstallResult.fatal p cmd out
  | none => InstallResult.ok

/-- Java heap option injection before the loop: if the configured
preinstallopts do not mention `_JAVA_OPTIONS`, an export of the configured
java options is prepended. -/
def effPreinstallopts (javaOptions preinstallopts : String) : String :=
  if containsS "_JAVA_OPTIONS" preinstallopts then preinstallopts
  else "export _JAVA_OPTIONS=\"" ++ javaOptions ++ "\" && " ++ preinstallopts

/-- Marker of the inert key field in the base configuration artifact. -/
def fikMarker : String := "# fileInstallationKey="

/-- Per-key configuration variant of the modern path:
`tmp_config.replace('# fileInstallationKey=', 'fileInstallationKey=%s' % key)`,
applied to the base artifact text (which is re-read from the base file for
every key of the loop). -/
def mkModernConfig (baseConfig key : String) : String :=
  pyReplaceS fikMarker ("fileInstallationKey=" ++ key) baseConfig

/-- Derived per-key configuration variants over a key list: the modern path
derives one variant per key, each directly from the base artifact; the
legacy path uses no per-key variant. -/
def perKeyConfigs (version baseConfig : String) (keys : List String) : List (Option String) :=
  keys.map fun k =>
    if useModernInstaller version then some (mkModernConfig baseConfig k) else none

/-- Legacy (version < 2020a) command composition: join of preinstallopts,
installer path, verbose flag, tmpdir flag, input file flag and path, key
flag and key, and installopts. -/
def legacyCmd (pre src tmpdirFlag configfile key post : String) : String :=
  pyJoin " " [pre, src, "-v", tmpdirFlag, "-inputFile", configfile, "-fileInstallationKey", key, post]

/-- Modern (version >= 2020a) command composition: join of preinstallopts,
installer path, input file flag and temporary per-key config path, and
installopts. -/
def modernCmd (pre src tmpConfigfile post : String) : String :=
  pyJoin " " [pre, src, "-inputFile", tmpConfigfile, post]

/-- Static data of one `install_step` run after the pre-loop set-up: the
effective preinstallopts, the paths, the single `-tmpdir` flag built before
the loop, and the stream of temporary file names used by the modern path. -/
structure InstallCtx where
  version : String
  preinstallopts : String
  installopts : String
  src : String
  configfile : String
  baseConfig : String
  tmpdirFlag : String
  tmpNames : Nat → String

/-- Command composed for the i-th key of the loop. -/
def keyCmd (ctx : InstallCtx) (i : Nat) (key : String) : String :=
  if useModernInstaller ctx.version then
    modernCmd ctx.preinstallopts ctx.src (ctx.tmpNames i) ctx.installopts
  else
    legacyCmd ctx.preinstallopts ctx.src ctx.tmpdirFlag ctx.configfile key ctx.installopts

/-- Per-key install loop of `install_step`: for each key, compose the
command, run it (capturing output and exit code; the exit code is bound to
`_` and discarded, as in the source), scan the captured output, and abort
on the first error-pattern match.  Returns the list of keys attempted, in
order, together with the final outcome. -/
def installLoop (ctx : InstallCtx) (run : String → String × Int) :
    Nat → List String → List String × InstallResult
  | _, [] => ([], InstallResult.ok)
  | i, k :: ks =>
    let cmd := keyCmd ctx i k
    let out := (run cmd).fst
    match scanOutput cmd out with
    | InstallResult.fatal p c o => ([k], InstallResult.fatal p c o)
    | InstallResult.ok =>
      let rest := installLoop ctx run (i + 1) ks
      (k :: rest.fst, rest.snd)

/-- Placeholder key of the `EB_MATLAB_KEY` environment fallback. -/
def defaultKey : String := "00000-00000-00000-00000-00000-00000-00000-00000-00000-00000"

/-- Key-list resolution of `install_step`: a missing config key falls back
to the environment value (or the placeholder); a single string is split on
commas; a list is used as is. -/
def resolveKeys (cfgKey : Option (String ⊕ List String)) (envKey : Option String) : List String :=
  match cfgKey with
  | none => pySplit (envKey.getD defaultKey)
  | some (Sum.inl s) => pySplit s
  | some (Sum.inr l) => l

/-- Construction of the loop context inside `install_step`: java options are
injected into preinstallopts, and `tempfile.mkdtemp()` is called exactly
once, before the loop, consuming only the first name of the fresh-directory
stream. -/
def mkInstallCtx (version javaOptions preinstallopts installopts src configfile baseConfig : String)
    (freshDirs : Nat → String) (tmpNames : Nat → String) : InstallCtx :=
  ⟨version, effPreinstallopts javaOptions preinstallopts, installopts, src, configfile, baseConfig,
   "-tmpdir " ++ freshDirs 0, tmpNames⟩

/-- The whole `install_step` run over the resolved keys. -/
def install_step (version javaOptions preinstallopts installopts src configfile baseConfig : String)
    (cfgKey : Option (String ⊕ List String)) (envKey : Option String)
    (freshDirs tmpNames : Nat → String) (run : String → String × Int) :
    List String × InstallResult :=
  installLoop
    (mkInstallCtx version javaOptions preinstallopts installopts src configfile baseConfig
      freshDirs tmpNames)
    run 0 (resolveKeys cfgKey envKey)

/-- The parts occur as disjoint contiguous substrings, in the given order,
inside the haystack. -/
def ContainsInOrder : List (List Char) → List Char → Prop
  | [], _ => True
  | p :: ps, hay => ∃ g rest, hay = g ++ p ++ rest ∧ ContainsInOrder ps rest

/-- Concrete legacy-version context used by concrete checks. -/
def ctxLegacy : InstallCtx :=
  mkInstallCtx "2016b" "-Xmx256m" "PRE" "POST" "/src/install" "/build/cfg.txt" "BASE"
    (fun n => "/tmp/fresh" ++ toString n) (fun n => "/tmp/name" ++ toString n)

/-- Concrete modern-version context used by concrete checks. -/
def ctxModern : InstallCtx :=
  mkInstallCtx "2020b" "-Xmx256m" "PRE" "POST" "/src/install" "/build/cfg.txt" "BASE"
    (fun n => "/tmp/fresh" ++ toString n) (fun n => "/tmp/name" ++ toString n)

/-- Oracle returning clean output with a nonzero exit code. -/
def runOkNonzero : String → String × Int := fun _ => ("installation finished", 3)

/-- Oracle returning the same clean output with a zero exit code. -/
def runOkZero : String → String × Int := fun _ => ("installation finished", 0)

/-- Oracle whose output matches the invalid-key signature (in scrambled
case) exactly for commands mentioning the key K1. -/
def runBadK1 : String → String × Int := fun cmd =>
  if containsS "K1" cmd then ("Oops ERROR: you have entered an INVALID File Installation Key.", 0)
  else ("fine", 0)

theorem containsInOrder_gap (ps : List (List Char)) (g hay : List Char)
    (h : ContainsInOrder ps hay) : ContainsInOrder ps (g ++ hay) := by
  cases ps with
  | nil => trivial
  | cons p ps =>
    obtain ⟨g2, rest, heq, hrest⟩ := h
    exact ⟨g ++ g2, rest, by rw [heq]; simp [List.append_assoc], hrest⟩

theorem containsInOrder_pyJoin (parts : List String) :
    ContainsInOrder (parts.map String.data) (pyJoin " " parts).data := by
  induction parts with
  | nil => trivial
  | cons x xs ih =>
    cases xs with
    | nil => exact ⟨[], [], by simp [pyJoin], trivial⟩
    | cons y ys =>
      refine ⟨[], (" " ++ pyJoin " " (y :: ys)).data, ?_, ?_⟩
      · simp [pyJoin, String.data_append, List.append_assoc]
      · have h2 := containsInOrder_gap ((y :: ys).map String.data) " ".data
          (pyJoin " " (y :: ys)).data ih
        simpa [String.data_append] using h2

theorem pyJoin_part_found (p : String) :
    ∀ parts : List String, p ∈ parts → p.data <:+: (pyJoin " " parts).data := by
  intro parts
  induction parts with
  | nil => intro hp; cases hp
  | cons x xs ih =>
    intro hp
    rcases List.mem_cons.mp hp with heq | hmem
    · subst heq
      cases xs with
      | nil => exact ⟨[], [], by simp [pyJoin]⟩
      | cons y ys => exact ⟨[], (" " ++ pyJoin " " (y :: ys)).data, by simp [pyJoin, String.data_append, List.append_assoc]⟩
    · have hxs : xs ≠ [] := by intro hnil; rw [hnil] at hmem; cases hmem
      obtain ⟨y, ys, rfl⟩ := List.exists_cons_of_ne_nil hxs
      obtain ⟨s, t, hst⟩ := ih hmem
      refine ⟨x.data ++ " ".data ++ s, t, ?_⟩
      rw [pyJoin, String.data_append, String.data_append]
      rw [← hst]
      simp [List.append_assoc]

theorem pyReplace_nil (old new : List Char) : pyReplace old new [] = [] := by
  simp [pyReplace]

theorem pyReplace_pos (old new : List Char) (c : Char) (cs : List Char)
    (h1 : old ≠ []) (h2 : old.isPrefixOf (c :: cs) = true) :
    pyReplace old new (c :: cs) = new ++ pyReplace old new ((c :: cs).drop old.length) := by
  rw [pyReplace]
  rw [dif_pos ⟨h1, h2⟩]

theorem pyReplace_neg (old new : List Char) (c : Char) (cs : List Char)
    (h : ¬(old ≠ [] ∧ old.isPrefixOf (c :: cs) = true)) :
    pyReplace old new (c :: cs) = c :: pyReplace old new cs := by
  rw [pyReplace]
  rw [dif_neg h]

theorem pyReplace_skip (c₀ : Char) (m new : List Char) :
    ∀ (a s : List Char), c₀ ∉ a →
      pyReplace (c₀ :: m) new (a ++ s) = a ++ pyReplace (c₀ :: m) new s := by
  intro a
  induction a with
  | nil => intro s _; simp
  | cons x a ih =>
    intro s hx
    simp only [List.mem_cons, not_or] at hx
    have hnp : ¬ ((c₀ :: m).isPrefixOf (x :: (a ++ s)) = true) := by
      intro hpre
      rw [ List.isPrefixOf_iff_prefix] at hpre
      rcases List.cons_prefix_cons.mp hpre with ⟨heq, _⟩
      exact hx.1 heq
    rw [List.cons_append, pyReplace_neg _ _ _ _ (fun hand => hnp hand.2), ih s hx.2]
    simp

theorem pyReplace_head (old new s : List Char) (h : old ≠ []) :
    pyReplace old new (old ++ s) = new ++ pyReplace old new s := by
  obtain ⟨o, ot, rfl⟩ := List.exists_cons_of_ne_nil h
  have hpre : (o :: ot).isPrefixOf ((o :: ot) ++ s) = true := by
    rw [ List.isPrefixOf_iff_prefix]
    exact ⟨s, rfl⟩
  have hcons : (o :: ot) ++ s = o :: (ot ++ s) := rfl
  rw [hcons] at hpre
  rw [hcons, pyReplace_pos _ _ _ _ (by simp) hpre]
  congr 1
  rw [← hcons, List.drop_left]

theorem pyReplace_fix (old new : List Char) :
    ∀ s, ¬ (old <:+: s) → pyReplace old new s = s := by
  intro s
  induction s with
  | nil => intro _; exact pyReplace_nil old new
  | cons c cs ih =>
    intro h
    have hnp : ¬ (old.isPrefixOf (c :: cs) = true) := by
      intro hp
      rw [ List.isPrefixOf_iff_prefix] at hp
      obtain ⟨t, ht⟩ := hp
      exact h ⟨[], t, by simp [ht]⟩
    rw [pyReplace_neg _ _ _ _ (fun hand => hnp hand.2)]
    rw [ih (fun hi => h (List.infix_cons hi))]

theorem no_occurrence_across (c₀ : Char) (m : List Char) :
    ∀ (a s : List Char), c₀ ∉ a → (c₀ :: m) <:+: a ++ s → (c₀ :: m) <:+: s := by
  intro a
  induction a with
  | nil => intro s _ h; simpa using h
  | cons x a ih =>
    intro s hx h
    simp only [List.mem_cons, not_or] at hx
    rcases h with ⟨g, t, hgt⟩
    cases g with
    | nil =>
      simp only [List.nil_append, List.cons_append] at hgt
      exact absurd (List.head_eq_of_cons_eq hgt) hx.1
    | cons x2 g2 =>
      simp only [List.cons_append] at hgt
      have htail := List.tail_eq_of_cons_eq hgt
      exact ih s hx.2 ⟨g2, t, by simpa [List.append_assoc] using htail⟩

theorem head_mem_of_occurrence (c : Char) (p l : List Char) (h : (c :: p) <:+: l) : c ∈ l := by
  obtain ⟨s, t, rfl⟩ := h
  simp

/-- C5: the version comparison used by the version gates orders
2016b < 2017a < 2020a < 2020b under the dotted/lettered LooseVersion
component scheme (a digit run and a letter run, as witnessed by the parse
of 2016b), the modern input-file method is selected exactly for the
versions at or above 2020a among these, and the scheme is not plain
lexicographic string comparison (9999b sorts below 10000a although it is
lexicographically above it). -/
theorem c5_version_ordering :
    looseLt "2016b" "2017a" = true ∧ looseLt "2017a" "2020a" = true ∧
    looseLt "2020a" "2020b" = true ∧
    looseLt "2017a" "2016b" = false ∧ looseLt "2020a" "2017a" = false ∧
    looseLt "2020b" "2020a" = false ∧
    looseParse "2016b" = [VComp.num 2016, VComp.str ['b']] ∧
    useModernInstaller "2016b" = false ∧ useModernInstaller "2017a" = false ∧
    useModernInstaller "2020a" = true ∧ useModernInstaller "2020b" = true ∧
    looseLt "9999b" "10000a" = true ∧ charsLt "9999b".data "10000a".data = false := by
  decide

/-- C7 counterexample: a configuration with no license file, no environment
overrides, but a configured license server host satisfies the claim's
conditions, yet the synthesized text differs from the text the claim
promises. -/
theorem c7_counterexample :
    configureLicenseText none (some "myserver.example.org") none none none ≠
      some "SERVER license.example.com 000000000000 00000\nUSE_SERVER" := by
  decide

/-- C7 amended: if no license file is configured, no license server host or
port is configured, and neither environment override is set, the
synthesized license text equals exactly
`SERVER license.example.com 000000000000 00000\nUSE_SERVER`. -/
theorem c7_default_license_text :
    configureLicenseText none none none none none =
      some "SERVER license.example.com 000000000000 00000\nUSE_SERVER" := by
  decide

theorem pyReplace_marker_split (newL : List Char) (a b : List Char) (ha : '#' ∉ a) :
    pyReplace fikMarker.data newL (a ++ fikMarker.data ++ b) =
      a ++ newL ++ pyReplace fikMarker.data newL b := by
  have hm : fikMarker.data = '#' :: " fileInstallationKey=".data := rfl
  rw [List.append_assoc]
  rw [hm, pyReplace_skip '#' " fileInstallationKey=".data newL a _ ha, ← hm]
  rw [pyReplace_head fikMarker.data newL b (by rw [hm]; simp)]
  simp [List.append_assoc]

/-- C10: the modern per-key substitution is a plain substring replacement.
An occurrence of the `# fileInstallationKey=` marker anywhere in the base
artifact, in particular mid-line after any text `a` free of `#`, is
rewritten to the activated `fileInstallationKey=<key>` text; the text `b`
following the marker on the same line stays in place immediately after the
inserted text; and the replacement continues over the remaining occurrences
inside `b`, rather than any whole line being replaced. -/
theorem c10_replace_is_substring_level (key : String) (a b : List Char) (ha : '#' ∉ a) :
    (mkModernConfig ⟨a ++ fikMarker.data ++ b⟩ key).data =
      a ++ ("fileInstallationKey=" ++ key).data ++
        pyReplace fikMarker.data ("fileInstallationKey=" ++ key).data b := by
  show pyReplace fikMarker.data ("fileInstallationKey=" ++ key).data
      (a ++ fikMarker.data ++ b) = _
  exact pyReplace_marker_split _ a b ha

/-- C10 witness: concrete instance with the marker occurring mid-line. -/
theorem c10_witness :
    ('#' ∉ "destFolder ".data) ∧
    (mkModernConfig ⟨"destFolder ".data ++ fikMarker.data ++ " tail".data⟩ "KKK").data =
      "destFolder ".data ++ ("fileInstallationKey=" ++ "KKK").data ++
        pyReplace fikMarker.data ("fileInstallationKey=" ++ "KKK").data " tail".data :=
  ⟨by decide, c10_replace_is_substring_level "KKK" "destFolder ".data " tail".data (by decide)⟩

/-- C4: in the modern path (any version at or above 2020a) with key list
AAAA then BBBB, the per-key configuration variant derived for key BBBB from
a base artifact of shape `a ++ marker ++ b` (the key field inert, no other
marker occurrence, no stray `#` before the marker, and no capital A in the
surrounding text) contains the activated `fileInstallationKey=BBBB` text,
does not contain the inert `# fileInstallationKey=` marker, and does not
contain the key AAAA of the earlier pass. -/
theorem c4_second_key_variant (version : String) (hver : useModernInstaller version = true)
    (a b : List Char) (ha : '#' ∉ a) (hb : ¬ (fikMarker.data <:+: b))
    (haA : 'A' ∉ a) (hbA : 'A' ∉ b) :
    ∃ v : String,
      (perKeyConfigs version ⟨a ++ fikMarker.data ++ b⟩ ["AAAA", "BBBB"]).get? 1 =
        some (some v) ∧
      "fileInstallationKey=BBBB".data <:+: v.data ∧
      ¬ (fikMarker.data <:+: v.data) ∧
      ¬ ("AAAA".data <:+: v.data) := by
  refine ⟨mkModernConfig ⟨a ++ fikMarker.data ++ b⟩ "BBBB", ?_, ?_, ?_, ?_⟩
  case _ =>
    simp [perKeyConfigs, hver]
  case _ =>
    have hv : (mkModernConfig ⟨a ++ fikMarker.data ++ b⟩ "BBBB").data =
        a ++ "fileInstallationKey=BBBB".data ++ b := by
      show pyReplace fikMarker.data ("fileInstallationKey=" ++ "BBBB").data
          (a ++ fikMarker.data ++ b) = _
      rw [pyReplace_marker_split _ a b ha, pyReplace_fix _ _ b hb]
      rfl
    exact ⟨a, b, by rw [hv]⟩
  case _ =>
    have hv : (mkModernConfig ⟨a ++ fikMarker.data ++ b⟩ "BBBB").data =
        a ++ "fileInstallationKey=BBBB".data ++ b := by
      show pyReplace fikMarker.data ("fileInstallationKey=" ++ "BBBB").data
          (a ++ fikMarker.data ++ b) = _
      rw [pyReplace_marker_split _ a b ha, pyReplace_fix _ _ b hb]
      rfl
    intro hocc
    rw [hv] at hocc
    have hm : fikMarker.data = '#' :: " fileInstallationKey=".data := rfl
    rw [hm] at hocc hb
    have hnoA : '#' ∉ a ++ "fileInstallationKey=BBBB".data := by
      intro hmem
      rcases List.mem_append.mp hmem with h1 | h2
      · exact ha h1
      · exact absurd h2 (by decide)
    exact hb (no_occurrence_across '#' _ (a ++ "fileInstallationKey=BBBB".data) b hnoA hocc)
  case _ =>
    have hv : (mkModernConfig ⟨a ++ fikMarker.data ++ b⟩ "BBBB").data =
        a ++ "fileInstallationKey=BBBB".data ++ b := by
      show pyReplace fikMarker.data ("fileInstallationKey=" ++ "BBBB").data
          (a ++ fikMarker.data ++ b) = _
      rw [pyReplace_marker_split _ a b ha, pyReplace_fix _ _ b hb]
      rfl
    intro hocc
    rw [hv] at hocc
    have hA : 'A' ∈ a ++ "fileInstallationKey=BBBB".data ++ b := by
      have : "AAAA".data = 'A' :: "AAA".data := rfl
      rw [this] at hocc
      exact head_mem_of_occurrence 'A' _ _ hocc
    rcases List.mem_append.mp hA with h1 | h2
    · rcases List.mem_append.mp h1 with h3 | h4
      · exact haA h3
      · exact absurd h4 (by decide)
    · exact hbA h2

/-- C4 witness: concrete base artifact and version 2020b. -/
theorem c4_witness :
    useModernInstaller "2020b" = true ∧
    ∃ v : String,
      (perKeyConfigs "2020b" ⟨"lines above\n".data ++ fikMarker.data ++ "\nlines below".data⟩
          ["AAAA", "BBBB"]).get? 1 = some (some v) ∧
      "fileInstallationKey=BBBB".data <:+: v.data ∧
      ¬ (fikMarker.data <:+: v.data) ∧
      ¬ ("AAAA".data <:+: v.data) :=
  ⟨by decide,
   c4_second_key_variant "2020b" (by decide) "lines above\n".data "\nlines below".data
     (by decide) (by decide) (by decide) (by decide)⟩

/-- C6: for a version below 2020a, the command composed for a key contains,
in order: the effective pre-install options, the installer path, `-v`, the
`-tmpdir` flag holding the directory freshly created by the single
`mkdtemp` call of the step, `-inputFile`, the base configuration artifact
path, `-fileInstallationKey`, the key, and the post-install options. -/
theorem c6_legacy_cmd_order
    (version javaOptions preinstallopts installopts src configfile baseConfig : String)
    (freshDirs tmpNames : Nat → String) (i : Nat) (k : String)
    (hver : useModernInstaller version = false) :
    ContainsInOrder
      [(effPreinstallopts javaOptions preinstallopts).data, src.data, "-v".data,
       ("-tmpdir " ++ freshDirs 0).data, "-inputFile".data, configfile.data,
       "-fileInstallationKey".data, k.data, installopts.data]
      (keyCmd (mkInstallCtx version javaOptions preinstallopts installopts src configfile
        baseConfig freshDirs tmpNames) i k).data := by
  have hcmd : keyCmd (mkInstallCtx version javaOptions preinstallopts installopts src
      configfile baseConfig freshDirs tmpNames) i k =
      legacyCmd (effPreinstallopts javaOptions preinstallopts) src ("-tmpdir " ++ freshDirs 0)
        configfile k installopts := by
    simp [keyCmd, mkInstallCtx, hver]
  rw [hcmd]
  have h := containsInOrder_pyJoin
    [effPreinstallopts javaOptions preinstallopts, src, "-v", "-tmpdir " ++ freshDirs 0,
     "-inputFile", configfile, "-fileInstallationKey", k, installopts]
  simpa [legacyCmd] using h

/-- C6 witness: concrete single-key legacy run. -/
theorem c6_witness :
    useModernInstaller "2016b" = false ∧
    ContainsInOrder
      [(effPreinstallopts "-Xmx256m" "PRE").data, "/src/install".data, "-v".data,
       ("-tmpdir " ++ "/tmp/fresh0").data, "-inputFile".data, "/build/cfg.txt".data,
       "-fileInstallationKey".data, "K1".data, "POST".data]
      (keyCmd (mkInstallCtx "2016b" "-Xmx256m" "PRE" "POST" "/src/install" "/build/cfg.txt"
        "BASE" (fun _ => "/tmp/fresh0") (fun n => "/tmp/name" ++ toString n)) 0 "K1").data :=
  ⟨by decide,
   c6_legacy_cmd_order "2016b" "-Xmx256m" "PRE" "POST" "/src/install" "/build/cfg.txt" "BASE"
     (fun _ => "/tmp/fresh0") (fun n => "/tmp/name" ++ toString n) 0 "K1" (by decide)⟩

set_option maxRecDepth 4000 in
/-- C8 counterexample: with a fresh-directory stream that yields a distinct
directory on every creation, the legacy commands composed for the first two
keys both embed the first directory, and the second command does not embed
the second directory: the temporary directory is not freshly created per
invocation and distinct keys share one directory. -/
theorem c8_counterexample :
    ("-tmpdir /tmp/fresh0".data <:+: (keyCmd ctxLegacy 0 "AAAA").data) ∧
    ("-tmpdir /tmp/fresh0".data <:+: (keyCmd ctxLegacy 1 "BBBB").data) ∧
    ¬ ("/tmp/fresh1".data <:+: (keyCmd ctxLegacy 1 "BBBB").data) := by
  decide

/-- C8 amended: `mkdtemp` is called once per install step, before the key
loop, and every per-key legacy invocation passes that same single freshly
created directory in its `-tmpdir` flag. -/
theorem c8_shared_tmpdir
    (version javaOptions preinstallopts installopts src configfile baseConfig : String)
    (freshDirs tmpNames : Nat → String) (hver : useModernInstaller version = false)
    (i : Nat) (k : String) :
    ("-tmpdir " ++ freshDirs 0).data <:+:
      (keyCmd (mkInstallCtx version javaOptions preinstallopts installopts src configfile
        baseConfig freshDirs tmpNames) i k).data := by
  have hcmd : keyCmd (mkInstallCtx version javaOptions preinstallopts installopts src
      configfile baseConfig freshDirs tmpNames) i k =
      legacyCmd (effPreinstallopts javaOptions preinstallopts) src ("-tmpdir " ++ freshDirs 0)
        configfile k installopts := by
    simp [keyCmd, mkInstallCtx, hver]
  rw [hcmd, legacyCmd]
  exact pyJoin_part_found _ _ (by simp)

/-- C8 amended claim witness: concrete two-key legacy contexts. -/
theorem c8_witness :
    useModernInstaller "2016b" = false ∧
    ("-tmpdir " ++ "/tmp/freshA").data <:+:
      (keyCmd (mkInstallCtx "2016b" "-Xmx256m" "PRE" "POST" "/src/install" "/build/cfg.txt"
        "BASE" (fun _ => "/tmp/freshA") (fun n => "/tmp/name" ++ toString n)) 1 "BBBB").data :=
  ⟨by decide,
   c8_shared_tmpdir "2016b" "-Xmx256m" "PRE" "POST" "/src/install" "/build/cfg.txt" "BASE"
     (fun _ => "/tmp/freshA") (fun n => "/tmp/name" ++ toString n) (by decide) 1 "BBBB"⟩

theorem installLoop_nil (ctx : InstallCtx) (run : String → String × Int) (i : Nat) :
    installLoop ctx run i [] = ([], InstallResult.ok) := rfl

theorem installLoop_cons_fatal (ctx : InstallCtx) (run : String → String × Int) (i : Nat)
    (k : String) (ks : List String)
    (h : containsCI invalidKeyPattern (run (keyCmd ctx i k)).fst = true) :
    installLoop ctx run i (k :: ks) =
      ([k], InstallResult.fatal invalidKeyPattern (keyCmd ctx i k)
        (run (keyCmd ctx i k)).fst) := by
  have hscan : scanOutput (keyCmd ctx i k) (run (keyCmd ctx i k)).fst =
      InstallResult.fatal invalidKeyPattern (keyCmd ctx i k) (run (keyCmd ctx i k)).fst := by
    simp [scanOutput, errorPatterns, List.find?, h]
  simp [installLoop, hscan]

theorem installLoop_cons_ok (ctx : InstallCtx) (run : String → String × Int) (i : Nat)
    (k : String) (ks : List String)
    (h : containsCI invalidKeyPattern (run (keyCmd ctx i k)).fst = false) :
    installLoop ctx run i (k :: ks) =
      (k :: (installLoop ctx run (i + 1) ks).fst, (installLoop ctx run (i + 1) ks).snd) := by
  have hscan : scanOutput (keyCmd ctx i k) (run (keyCmd ctx i k)).fst = InstallResult.ok := by
    simp [scanOutput, errorPatterns, List.find?, h]
  simp [installLoop, hscan]

/-- C1: if, in a run of the per-key loop, the keys before position n all
produce non-matching output and the invocation for the key at position n
produces output containing the invalid-key signature (case-insensitively),
then the loop stops there with the fatal error carrying the matched
pattern, the full command string and the full captured output, and no
subsequent key of the list is attempted. -/
theorem c1_abort_on_invalid_key (ctx : InstallCtx) (run : String → String × Int) (i : Nat)
    (ks₁ : List String) (k : String) (ks₂ : List String)
    (h₁ : ∀ j k₀, ks₁[j]? = some k₀ →
      containsCI invalidKeyPattern (run (keyCmd ctx (i + j) k₀)).fst = false)
    (h₂ : containsCI invalidKeyPattern (run (keyCmd ctx (i + ks₁.length) k)).fst = true) :
    installLoop ctx run i (ks₁ ++ k :: ks₂) =
      (ks₁ ++ [k],
       InstallResult.fatal invalidKeyPattern (keyCmd ctx (i + ks₁.length) k)
         (run (keyCmd ctx (i + ks₁.length) k)).fst) := by
  induction ks₁ generalizing i with
  | nil =>
    simp only [List.nil_append, List.length_nil, Nat.add_zero] at h₂ ⊢
    exact installLoop_cons_fatal ctx run i k ks₂ h₂
  | cons k₀ t ih =>
    have h0 : containsCI invalidKeyPattern (run (keyCmd ctx i k₀)).fst = false := by
      have h := h₁ 0 k₀ (by simp)
      simpa using h
    have h₁t : ∀ j k₁, t[j]? = some k₁ →
        containsCI invalidKeyPattern (run (keyCmd ctx (i + 1 + j) k₁)).fst = false := by
      intro j k₁ hj
      have h := h₁ (j + 1) k₁ (by simpa using hj)
      have hidx : i + (j + 1) = i + 1 + j := by omega
      rwa [hidx] at h
    have h₂t : containsCI invalidKeyPattern
        (run (keyCmd ctx (i + 1 + t.length) k)).fst = true := by
      have hidx : i + (k₀ :: t).length = i + 1 + t.length := by
        simp only [List.length_cons]
        omega
      rwa [hidx] at h₂
    have hrec := ih (i + 1) h₁t h₂t
    rw [List.cons_append, installLoop_cons_ok ctx run i k₀ (t ++ k :: ks₂) h0, hrec]
    have hidx : i + 1 + t.length = i + (k₀ :: t).length := by
      simp only [List.length_cons]
      omega
    rw [hidx]
    simp

/-- C1 witness: a concrete three-key run whose second key draws the
invalid-key message (in scrambled letter case): only the first two keys are
attempted and the loop ends with the fatal error. -/
theorem c1_witness :
    installLoop ctxLegacy runBadK1 0 (["K0"] ++ "K1" :: ["K2"]) =
      (["K0"] ++ ["K1"],
       InstallResult.fatal invalidKeyPattern (keyCmd ctxLegacy (0 + ["K0"].length) "K1")
         (runBadK1 (keyCmd ctxLegacy (0 + ["K0"].length) "K1")).fst) :=
  c1_abort_on_invalid_key ctxLegacy runBadK1 0 ["K0"] "K1" ["K2"]
    (by
      intro j k₀ hj
      cases j with
      | zero =>
        simp only [List.getElem?_cons_zero, Option.some.injEq] at hj
        subst hj
        decide
      | succ n => simp at hj)
    (by decide)

/-- C3: the loop's outcome depends only on captured output, never on the
exit code (two oracles agreeing on outputs yield identical loop results),
and a run over a key list ends without the fatal error exactly when no
invocation's output matches the invalid-key signature. -/
theorem c3_match_not_exit_code (ctx : InstallCtx) (run : String → String × Int)
    (i : Nat) (ks : List String) :
    (∀ run₂ : String → String × Int, (∀ c, (run c).fst = (run₂ c).fst) →
      installLoop ctx run i ks = installLoop ctx run₂ i ks) ∧
    ((installLoop ctx run i ks).snd = InstallResult.ok ↔
      ∀ j k₀, ks[j]? = some k₀ →
        containsCI invalidKeyPattern (run (keyCmd ctx (i + j) k₀)).fst = false) := by
  constructor
  · intro run₂ hout
    induction ks generalizing i with
    | nil => rfl
    | cons k t ih =>
      by_cases hm : containsCI invalidKeyPattern (run (keyCmd ctx i k)).fst = true
      · rw [installLoop_cons_fatal ctx run i k t hm,
            installLoop_cons_fatal ctx run₂ i k t (by rw [← hout]; exact hm), hout]
      · have hm2 : containsCI invalidKeyPattern (run (keyCmd ctx i k)).fst = false := by
          simpa using hm
        rw [installLoop_cons_ok ctx run i k t hm2,
            installLoop_cons_ok ctx run₂ i k t (by rw [← hout]; exact hm2), ih (i + 1)]
  · induction ks generalizing i with
    | nil =>
      rw [installLoop_nil]
      simp
    | cons k t ih =>
      by_cases hm : containsCI invalidKeyPattern (run (keyCmd ctx i k)).fst = true
      · rw [installLoop_cons_fatal ctx run i k t hm]
        constructor
        · intro hok
          exact absurd hok (by simp)
        · intro hall
          have h0 := hall 0 k (by simp)
          rw [Nat.add_zero] at h0
          rw [hm] at h0
          cases h0
      · have hm2 : containsCI invalidKeyPattern (run (keyCmd ctx i k)).fst = false := by
          simpa using hm
        rw [installLoop_cons_ok ctx run i k t hm2]
        simp only
        rw [ih (i + 1)]
        constructor
        · intro hall j k₀ hj
          cases j with
          | zero =>
            simp only [List.getElem?_cons_zero, Option.some.injEq] at hj
            subst hj
            rw [Nat.add_zero]
            exact hm2
          | succ n =>
            have h := hall n k₀ (by simpa using hj)
            have hidx : i + 1 + n = i + (n + 1) := by omega
            rwa [hidx] at h
        · intro hall n k₀ hn
          have h := hall (n + 1) k₀ (by simpa using hn)
          have hidx : i + (n + 1) = i + 1 + n := by omega
          rwa [hidx] at h

/-- C3 witness: a concrete two-key run where the exit code differs (3
versus 0) with identical clean output: the loop results coincide and the
run completes without the fatal error. -/
theorem c3_witness :
    installLoop ctxLegacy runOkNonzero 0 ["X", "Y"] =
      installLoop ctxLegacy runOkZero 0 ["X", "Y"] ∧
    (installLoop ctxLegacy runOkNonzero 0 ["X", "Y"]).snd = InstallResult.ok :=
  ⟨(c3_match_not_exit_code ctxLegacy runOkNonzero 0 ["X", "Y"]).1 runOkZero (fun _ => rfl),
   (c3_match_not_exit_code ctxLegacy runOkNonzero 0 ["X", "Y"]).2.mpr
     (by
       intro j k₀ hj
       show containsCI invalidKeyPattern "installation finished" = false
       decide)⟩

theorem installLoop_all_ok (ctx : InstallCtx) (run : String → String × Int)
    (h : ∀ c, containsCI invalidKeyPattern (run c).fst = false) :
    ∀ (i : Nat) (ks : List String), installLoop ctx run i ks = (ks, InstallResult.ok) := by
  intro i ks
  induction ks generalizing i with
  | nil => rfl
  | cons k t ih =>
    rw [installLoop_cons_ok ctx run i k t (h _), ih (i + 1)]

theorem pySplitComma_ne_nil : ∀ l : List Char, pySplitComma l ≠ [] := by
  intro l
  cases l with
  | nil => simp [pySplitComma]
  | cons c cs =>
    by_cases hc : c = ','
    · simp [pySplitComma, hc]
    · cases h : pySplitComma cs with
      | nil => simp [pySplitComma, hc, h]
      | cons t ts => simp [pySplitComma, hc, h]

theorem pySplitComma_length : ∀ l : List Char, (pySplitComma l).length = l.count ',' + 1 := by
  intro l
  induction l with
  | nil => simp [pySplitComma]
  | cons c cs ih =>
    by_cases hc : c = ','
    · subst hc
      simp [pySplitComma, List.count_cons, ih]
    · cases h : pySplitComma cs with
      | nil => exact absurd h (pySplitComma_ne_nil cs)
      | cons t ts =>
        rw [h] at ih
        simp only [pySplitComma, hc, if_false, h, List.length_cons] at ih ⊢
        have hbeq : (c == ',') = false := by simpa using hc
        simp [List.count_cons, hbeq]
        omega

theorem pySplit_length (s : String) : (pySplit s).length = s.data.count ',' + 1 := by
  simp [pySplit, pySplitComma_length]

/-- C9: a single-string key value is split on commas into the ordered key
list, so a string with N-1 commas yields exactly N install passes, one per
comma-separated segment in order (a comma-free string yields one pass),
while a list value is used as is; with no error matches every resolved key
is attempted, in order. -/
theorem c9_key_splitting (ctx : InstallCtx) (run : String → String × Int)
    (envKey : Option String)
    (hrun : ∀ c, containsCI invalidKeyPattern (run c).fst = false) :
    (∀ s : String,
      installLoop ctx run 0 (resolveKeys (some (Sum.inl s)) envKey) =
        (pySplit s, InstallResult.ok) ∧
      (pySplit s).length = s.data.count ',' + 1) ∧
    (∀ l : List String,
      installLoop ctx run 0 (resolveKeys (some (Sum.inr l)) envKey) =
        (l, InstallResult.ok)) := by
  constructor
  · intro s
    constructor
    · show installLoop ctx run 0 (pySplit s) = (pySplit s, InstallResult.ok)
      exact installLoop_all_ok ctx run hrun 0 _
    · exact pySplit_length s
  · intro l
    show installLoop ctx run 0 l = (l, InstallResult.ok)
    exact installLoop_all_ok ctx run hrun 0 l

/-- C9 witness: a three-segment comma string (two commas, three passes, in
order) and a two-element list used as is. -/
theorem c9_witness :
    (installLoop ctxLegacy runOkNonzero 0 (resolveKeys (some (Sum.inl "aa,bb,cc")) none) =
      (pySplit "aa,bb,cc", InstallResult.ok) ∧
     (pySplit "aa,bb,cc").length = "aa,bb,cc".data.count ',' + 1) ∧
    installLoop ctxLegacy runOkNonzero 0 (resolveKeys (some (Sum.inr ["L1", "L2"])) none) =
      (["L1", "L2"], InstallResult.ok) := by
  have h := c9_key_splitting ctxLegacy runOkNonzero none
    (by
      intro c
      show containsCI invalidKeyPattern "installation finished" = false
      decide)
  exact ⟨h.1 "aa,bb,cc", h.2 ["L1", "L2"]⟩

theorem matchesMarker_head_ne (m l : String) (c : Char) (hm : m.data.head? = some '#')
    (hc : c ≠ '#') (hl : l.data.head? = some c) : matchesMarker m l = false := by
  show m.data.isPrefixOf l.data = false
  cases hmd : m.data with
  | nil => rw [hmd] at hm; cases hm
  | cons m0 mt =>
    rw [hmd] at hm
    simp only [List.head?_cons, Option.some.injEq] at hm
    cases hld : l.data with
    | nil => rw [hld] at hl; cases hl
    | cons l0 lt =>
      rw [hld] at hl
      simp only [List.head?_cons, Option.some.injEq] at hl
      subst hm
      have hl0 : l0 ≠ '#' := by rw [hl]; exact hc
      have hne : ('#' == l0) = false := by
        simpa using (fun he => hl0 he.symm)
      simp [List.isPrefixOf, hne]

theorem markers_exclusive (m₁ m₂ l : String)
    (h12 : m₁.data.isPrefixOf m₂.data = false) (h21 : m₂.data.isPrefixOf m₁.data = false)
    (h : matchesMarker m₁ l = true) : matchesMarker m₂ l = false := by
  by_contra hcon
  have h2 : matchesMarker m₂ l = true := by simpa using hcon
  have p1 : m₁.data <+: l.data := ( List.isPrefixOf_iff_prefix).mp h
  have p2 : m₂.data <+: l.data := ( List.isPrefixOf_iff_prefix).mp h2
  rcases List.prefix_or_prefix_of_prefix p1 p2 with hp | hp
  · rw [← List.isPrefixOf_iff_prefix, h12] at hp
    cases hp
  · rw [← List.isPrefixOf_iff_prefix, h21] at hp
    cases hp

theorem activateLine_dest (d f l : String) (h : matchesMarker destMarker l = true) :
    activateLine d f l = "destinationFolder=" ++ d := by
  have e1 : subLineOne destMarker ("destinationFolder=" ++ d) l = "destinationFolder=" ++ d := by
    simp [subLineOne, h]
  have e2 : matchesMarker agreeMarker ("destinationFolder=" ++ d) = false :=
    matchesMarker_head_ne agreeMarker _ 'd' rfl (by decide) rfl
  have e3 : matchesMarker modeMarker ("destinationFolder=" ++ d) = false :=
    matchesMarker_head_ne modeMarker _ 'd' rfl (by decide) rfl
  have e4 : matchesMarker licpathMarker ("destinationFolder=" ++ d) = false :=
    matchesMarker_head_ne licpathMarker _ 'd' rfl (by decide) rfl
  rw [activateLine, e1]
  simp [subLineOne, e2, e3, e4]

theorem activateLine_agree (d f l : String) (h : matchesMarker agreeMarker l = true) :
    activateLine d f l = "agreeToLicense=Yes" := by
  have e0 : matchesMarker destMarker l = false :=
    markers_exclusive agreeMarker destMarker l (by decide) (by decide) h
  have e2 : matchesMarker modeMarker "agreeToLicense=Yes" = false := by decide
  have e3 : matchesMarker licpathMarker "agreeToLicense=Yes" = false := by decide
  rw [activateLine]
  simp [subLineOne, e0, h, e2, e3]

theorem activateLine_mode (d f l : String) (h : matchesMarker modeMarker l = true) :
    activateLine d f l = "mode=silent" := by
  have e0 : matchesMarker destMarker l = false :=
    markers_exclusive modeMarker destMarker l (by decide) (by decide) h
  have e1 : matchesMarker agreeMarker l = false :=
    markers_exclusive modeMarker agreeMarker l (by decide) (by decide) h
  have e3 : matchesMarker licpathMarker "mode=silent" = false := by decide
  rw [activateLine]
  simp [subLineOne, e0, e1, h, e3]

theorem activateLine_lic (d f l : String) (h : matchesMarker licpathMarker l = true) :
    activateLine d f l = "licensePath=" ++ f := by
  have e0 : matchesMarker destMarker l = false :=
    markers_exclusive licpathMarker destMarker l (by decide) (by decide) h
  have e1 : matchesMarker agreeMarker l = false :=
    markers_exclusive licpathMarker agreeMarker l (by decide) (by decide) h
  have e2 : matchesMarker modeMarker l = false :=
    markers_exclusive licpathMarker modeMarker l (by decide) (by decide) h
  rw [activateLine]
  simp [subLineOne, e0, e1, e2, h]

theorem activateLine_none (d f l : String)
    (c1 : matchesMarker destMarker l = false) (c2 : matchesMarker agreeMarker l = false)
    (c3 : matchesMarker modeMarker l = false) (c4 : matchesMarker licpathMarker l = false) :
    activateLine d f l = l := by
  rw [activateLine]
  simp [subLineOne, c1, c2, c3, c4]

theorem configure_step_subs_eq_map (d f : String) (lines : List String) :
    configure_step_subs d f lines = lines.map (activateLine d f) := by
  simp only [configure_step_subs, subLine, List.map_map]
  rfl

theorem activateLine_no_marker (d f l m : String)
    (hm : m = destMarker ∨ m = agreeMarker ∨ m = modeMarker ∨ m = licpathMarker) :
    matchesMarker m (activateLine d f l) = false := by
  have hmh : m.data.head? = some '#' := by
    rcases hm with rfl | rfl | rfl | rfl <;> rfl
  by_cases c1 : matchesMarker destMarker l = true
  · rw [activateLine_dest d f l c1]
    exact matchesMarker_head_ne m _ 'd' hmh (by decide) rfl
  · have c1f : matchesMarker destMarker l = false := by simpa using c1
    by_cases c2 : matchesMarker agreeMarker l = true
    · rw [activateLine_agree d f l c2]
      exact matchesMarker_head_ne m _ 'a' hmh (by decide) rfl
    · have c2f : matchesMarker agreeMarker l = false := by simpa using c2
      by_cases c3 : matchesMarker modeMarker l = true
      · rw [activateLine_mode d f l c3]
        exact matchesMarker_head_ne m _ 'm' hmh (by decide) rfl
      · have c3f : matchesMarker modeMarker l = false := by simpa using c3
        by_cases c4 : matchesMarker licpathMarker l = true
        · rw [activateLine_lic d f l c4]
          exact matchesMarker_head_ne m _ 'l' hmh (by decide) rfl
        · have c4f : matchesMarker licpathMarker l = false := by simpa using c4
          rw [activateLine_none d f l c1f c2f c3f c4f]
          rcases hm with rfl | rfl | rfl | rfl
          · exact c1f
          · exact c2f
          · exact c3f
          · exact c4f

theorem countP_zip_map (g : String → String) (q : String → String → Bool) :
    ∀ lines : List String,
      (lines.zip (lines.map g)).countP (fun p => q p.fst p.snd) =
        lines.countP (fun l => q l (g l)) := by
  intro lines
  induction lines with
  | nil => rfl
  | cons x t ih =>
    simp only [List.map_cons, List.zip_cons_cons, List.countP_cons, ih]

/-- C2: over a template whose lines contain, for each of the four markers,
exactly one line beginning with that marker, the configure substitutions
keep the line count, turn each marker line into the one activated
assignment line with the correct value (exactly one such replacement per
marker, counted over the position pairs), leave no line beginning with any
of the four markers, and keep every non-marker line character for character
at its original position. -/
theorem c2_configure_template (d f : String) (lines : List String)
    (h1 : lines.countP (fun l => matchesMarker destMarker l) = 1)
    (h2 : lines.countP (fun l => matchesMarker agreeMarker l) = 1)
    (h3 : lines.countP (fun l => matchesMarker modeMarker l) = 1)
    (h4 : lines.countP (fun l => matchesMarker licpathMarker l) = 1) :
    (configure_step_subs d f lines).length = lines.length ∧
    (∀ (j : Nat) (l : String), lines[j]? = some l →
      (matchesMarker destMarker l = true →
        (configure_step_subs d f lines)[j]? = some ("destinationFolder=" ++ d)) ∧
      (matchesMarker agreeMarker l = true →
        (configure_step_subs d f lines)[j]? = some "agreeToLicense=Yes") ∧
      (matchesMarker modeMarker l = true →
        (configure_step_subs d f lines)[j]? = some "mode=silent") ∧
      (matchesMarker licpathMarker l = true →
        (configure_step_subs d f lines)[j]? = some ("licensePath=" ++ f)) ∧
      (matchesMarker destMarker l = false → matchesMarker agreeMarker l = false →
        matchesMarker modeMarker l = false → matchesMarker licpathMarker l = false →
        (configure_step_subs d f lines)[j]? = some l)) ∧
    ((configure_step_subs d f lines).countP (fun l => matchesMarker destMarker l) = 0 ∧
     (configure_step_subs d f lines).countP (fun l => matchesMarker agreeMarker l) = 0 ∧
     (configure_step_subs d f lines).countP (fun l => matchesMarker modeMarker l) = 0 ∧
     (configure_step_subs d f lines).countP (fun l => matchesMarker licpathMarker l) = 0) ∧
    ((lines.zip (configure_step_subs d f lines)).countP
        (fun p => matchesMarker destMarker p.fst && (p.snd == "destinationFolder=" ++ d)) = 1 ∧
     (lines.zip (configure_step_subs d f lines)).countP
        (fun p => matchesMarker agreeMarker p.fst && (p.snd == "agreeToLicense=Yes")) = 1 ∧
     (lines.zip (configure_step_subs d f lines)).countP
        (fun p => matchesMarker modeMarker p.fst && (p.snd == "mode=silent")) = 1 ∧
     (lines.zip (configure_step_subs d f lines)).countP
        (fun p => matchesMarker licpathMarker p.fst && (p.snd == "licensePath=" ++ f)) = 1) := by
  rw [configure_step_subs_eq_map]
  refine ⟨List.length_map lines (activateLine d f), ?_, ?_, ?_⟩
  · intro j l hj
    have hmap : (lines.map (activateLine d f))[j]? = some (activateLine d f l) := by
      simp [List.getElem?_map, hj]
    refine ⟨?_, ?_, ?_, ?_, ?_⟩
    · intro hm
      rw [hmap, activateLine_dest d f l hm]
    · intro hm
      rw [hmap, activateLine_agree d f l hm]
    · intro hm
      rw [hmap, activateLine_mode d f l hm]
    · intro hm
      rw [hmap, activateLine_lic d f l hm]
    · intro c1 c2 c3 c4
      rw [hmap, activateLine_none d f l c1 c2 c3 c4]
  · refine ⟨?_, ?_, ?_, ?_⟩
    all_goals
      apply List.countP_eq_zero.mpr
      intro x hx
      obtain ⟨l, _, rfl⟩ := List.mem_map.mp hx
    · simp [activateLine_no_marker d f l destMarker (Or.inl rfl)]
    · simp [activateLine_no_marker d f l agreeMarker (Or.inr (Or.inl rfl))]
    · simp [activateLine_no_marker d f l modeMarker (Or.inr (Or.inr (Or.inl rfl)))]
    · simp [activateLine_no_marker d f l licpathMarker (Or.inr (Or.inr (Or.inr rfl)))]
  · refine ⟨?_, ?_, ?_, ?_⟩
    · rw [countP_zip_map (activateLine d f)
        (fun a b => matchesMarker destMarker a && (b == "destinationFolder=" ++ d)) lines]
      have hpt : ∀ x ∈ lines,
          (matchesMarker destMarker x && (activateLine d f x == "destinationFolder=" ++ d)) =
            matchesMarker destMarker x := by
        intro x hx
        by_cases hm : matchesMarker destMarker x = true
        · rw [hm, activateLine_dest d f x hm]
          simp
        · have hmf : matchesMarker destMarker x = false := by simpa using hm
          rw [hmf]
          simp
      have hiff : ∀ x ∈ lines,
          (matchesMarker destMarker x && (activateLine d f x == "destinationFolder=" ++ d)) = true ↔
            matchesMarker destMarker x = true := by
        intro x hx
        rw [hpt x hx]
      exact (List.countP_congr hiff).trans h1
    · rw [countP_zip_map (activateLine d f)
        (fun a b => matchesMarker agreeMarker a && (b == "agreeToLicense=Yes")) lines]
      have hpt : ∀ x ∈ lines,
          (matchesMarker agreeMarker x && (activateLine d f x == "agreeToLicense=Yes")) =
            matchesMarker agreeMarker x := by
        intro x hx
        by_cases hm : matchesMarker agreeMarker x = true
        · rw [hm, activateLine_agree d f x hm]
          simp
        · have hmf : matchesMarker agreeMarker x = false := by simpa using hm
          rw [hmf]
          simp
      have hiff : ∀ x ∈ lines,
          (matchesMarker agreeMarker x && (activateLine d f x == "agreeToLicense=Yes")) = true ↔
            matchesMarker agreeMarker x = true := by
        intro x hx
        rw [hpt x hx]
      exact (List.countP_congr hiff).trans h2
    · rw [countP_zip_map (activateLine d f)
        (fun a b => matchesMarker modeMarker a && (b == "mode=silent")) lines]
      have hpt : ∀ x ∈ lines,
          (matchesMarker modeMarker x && (activateLine d f x == "mode=silent")) =
            matchesMarker modeMarker x := by
        intro x hx
        by_cases hm : matchesMarker modeMarker x = true
        · rw [hm, activateLine_mode d f x hm]
          simp
        · have hmf : matchesMarker modeMarker x = false := by simpa using hm
          rw [hmf]
          simp
      have hiff : ∀ x ∈ lines,
          (matchesMarker modeMarker x && (activateLine d f x == "mode=silent")) = true ↔
            matchesMarker modeMarker x = true := by
        intro x hx
        rw [hpt x hx]
      exact (List.countP_congr hiff).trans h3
    · rw [countP_zip_map (activateLine d f)
        (fun a b => matchesMarker licpathMarker a && (b == "licensePath=" ++ f)) lines]
      have hpt : ∀ x ∈ lines,
          (matchesMarker licpathMarker x && (activateLine d f x == "licensePath=" ++ f)) =
            matchesMarker licpathMarker x := by
        intro x hx
        by_cases hm : matchesMarker licpathMarker x = true
        · rw [hm, activateLine_lic d f x hm]
          simp
        · have hmf : matchesMarker licpathMarker x = false := by simpa using hm
          rw [hmf]
          simp
      have hiff : ∀ x ∈ lines,
          (matchesMarker licpathMarker x && (activateLine d f x == "licensePath=" ++ f)) = true ↔
            matchesMarker licpathMarker x = true := by
        intro x hx
        rw [hpt x hx]
      exact (List.countP_congr hiff).trans h4

/-- C2 witness: the concrete template `linesW` has exactly one commented
line per marker; the theorem applied there keeps the line count, leaves no
commented destinationFolder marker and activates it at exactly one
position. -/
theorem c2_witness :
    (linesW.countP (fun l => matchesMarker destMarker l) = 1) ∧
    (configure_step_subs "/opt/matlab" "/lic/matlab.lic" linesW).length = linesW.length ∧
    (configure_step_subs "/opt/matlab" "/lic/matlab.lic" linesW).countP
      (fun l => matchesMarker destMarker l) = 0 ∧
    (linesW.zip (configure_step_subs "/opt/matlab" "/lic/matlab.lic" linesW)).countP
      (fun p => matchesMarker destMarker p.fst &&
        (p.snd == "destinationFolder=" ++ "/opt/matlab")) = 1 :=
  ⟨by decide,
   (c2_configure_template "/opt/matlab" "/lic/matlab.lic" linesW (by decide) (by decide)
     (by decide) (by decide)).1,
   (c2_configure_template "/opt/matlab" "/lic/matlab.lic" linesW (by decide) (by decide)
     (by decide) (by decide)).2.2.1.1,
   (c2_configure_template "/opt/matlab" "/lic/matlab.lic" linesW (by decide) (by decide)
     (by decide) (by decide)).2.2.2.1⟩
